import Mathlib

/-!
# CryptoFortress key management: Shamir service

Shallow embedding of `go-backend/keymgmt/internal/services/shamir_service.go`.

* A Go `[]byte` is a `List Nat` whose elements are byte values.
* A Go `int` argument is an `Int` (a Go `int` is a 64-bit value); the functions
  below only compare such values, so no wrap-around can occur.
* A Go `([][]byte, error)` result is a pair of options: `none` in the first
  component is the `nil` slice, `none` in the second is the `nil` error.
* A call that panics returns nothing: a function that can panic has an
  `Option` around its results, and `none` is the panic.
-/

namespace CryptoFortress

/-- A Go byte slice. -/
abbrev Bytes := List Nat

/-- The bytes of an ASCII string literal (`[]byte("...")`). -/
def bytesOfString (s : String) : Bytes :=
  s.toList.map Char.toNat

/-- The bytes `fmt.Sprintf("%d", i)` produces for a non-negative `i`. -/
def decimalBytes (i : Nat) : Bytes :=
  (Nat.toDigits 10 i).map Char.toNat

/-- The value `[]byte(fmt.Sprintf("share-%d-of-secret", i))` of the loop body
of `SplitSecret`. -/
def placeholderShare (i : Nat) : Bytes :=
  bytesOfString "share-" ++ decimalBytes i ++ bytesOfString "-of-secret"

/-- The text of the first error of `SplitSecret`
(`fmt.Errorf("threshold (%d) cannot be greater than shares (%d)", ...)`). -/
def thresholdGreaterMsg (threshold shares : Int) : String :=
  "threshold (" ++ toString threshold ++ ") cannot be greater than shares ("
    ++ toString shares ++ ")"

/-- The constant `maxAlloc` of the Go runtime on a 64-bit platform with 48-bit
heap addresses: the size in bytes no allocation may exceed. -/
def maxAlloc : Int := 2 ^ 48

/-- The size in bytes of a `[]byte` slice header, the element type of
`[][]byte`, on a 64-bit platform. -/
def sliceHeaderSize : Int := 24

/-- The method `shamirServiceImpl.SplitSecret`: the two parameter checks, then
`make([][]byte, shares)` and the loop `for i := 0; i < shares; i++` that fills
the slice. The result is `none` when `make` panics (`makeslice: len out of
range`), which the runtime does when the `shares` slice headers need more than
`maxAlloc` bytes; a negative length cannot reach `make`. Up to that limit the
allocation is taken to succeed: running out of the memory of the machine is
not part of the model. -/
def SplitSecret (_secret : Bytes) (threshold shares : Int) :
    Option (Option (List Bytes) × Option String) :=
  if threshold > shares then
    some (none, some (thresholdGreaterMsg threshold shares))
  else if threshold < 1 ∨ shares < 1 then
    some (none, some "threshold and shares must be positive integers")
  else if sliceHeaderSize * shares > maxAlloc then
    none
  else
    some (some ((List.range shares.toNat).map placeholderShare), none)

/-- The method `shamirServiceImpl.CombineShares`: it returns the fixed byte
string and a `nil` error. -/
def CombineShares (_shares : List Bytes) : Option Bytes × Option String :=
  (some (bytesOfString "reconstructed-secret"), none)

/-- The first byte of a share, read as its `x` tag. -/
def shareTag (share : Bytes) : Option Nat :=
  share.head?

/-- The bytes of a share after its tag byte. -/
def sharePayload (share : Bytes) : Bytes :=
  share.tail

/-- A 22-byte secret used in the scenarios. -/
def secret22 : Bytes :=
  bytesOfString "my-22-byte-secret-key!"

/-- The byte string `[]byte("reconstructed-secret")` that `CombineShares` returns. -/
def reconstructedSecret : Bytes :=
  bytesOfString "reconstructed-secret"

/-! ## Configuration and service values

The services of `keymgmt/internal/services` hold one field, the configuration.
Their methods have pointer receivers; a method is modelled as a function that
takes the service value and returns it again next to the Go results, so that
what a call leaves behind is explicit. A line written with `fmt.Printf` goes to
standard output and is not part of a result. A `time.Time` is an `Int`
(nanoseconds), `time.Now()` is a parameter, and a `time.Duration` is an `Int`
of nanoseconds with 64-bit wrap-around. -/

/-- The struct `config.Config` of the key management service. -/
structure Config where
  Port : String
  DatabaseURL : String
  VaultAddr : String
  VaultToken : String
  KeyRotationPeriod : Int
  ShamirThreshold : Int
  ShamirShares : Int
  ReplicationEnabled : Bool
  ReplicationRegions : List String
  deriving DecidableEq, Repr

/-- The configuration `config.Load` builds when no environment variable is set. -/
def defaultConfig : Config :=
  { Port := "8082", DatabaseURL := "", VaultAddr := "", VaultToken := "",
    KeyRotationPeriod := 90, ShamirThreshold := 2, ShamirShares := 3,
    ReplicationEnabled := false, ReplicationRegions := [] }

/-- The struct `keyServiceImpl`. -/
structure keyServiceImpl where
  config : Config
  deriving DecidableEq, Repr

/-- The struct `rotationServiceImpl`. -/
structure rotationServiceImpl where
  config : Config
  deriving DecidableEq, Repr

/-- The struct `replicationServiceImpl`. -/
structure replicationServiceImpl where
  config : Config
  deriving DecidableEq, Repr

/-- The struct `KeyMetadata`; a `nil` time pointer is `none`, the label map is
an association list. -/
structure KeyMetadata where
  Algorithm : String
  Size : Int
  CreatedAt : Int
  UpdatedAt : Int
  ExpiresAt : Option Int
  RevokedAt : Option Int
  Labels : List (String × String)
  Description : String
  Version : Int
  deriving DecidableEq, Repr

/-- The struct `KeyInfo`. -/
structure KeyInfo where
  KeyID : String
  Algorithm : String
  Size : Int
  CreatedAt : Int
  deriving DecidableEq, Repr

/-- The struct `RotationSchedule`. -/
structure RotationSchedule where
  KeyID : String
  Interval : Int
  NextRotate : Int
  Enabled : Bool
  deriving DecidableEq, Repr

/-- The struct `BackupInfo`. -/
structure BackupInfo where
  BackupID : String
  KeyID : String
  CreatedAt : Int
  Destination : String
  Size : Int
  deriving DecidableEq, Repr

/-! ## Key service -/

/-- The bytes `rand.Read` leaves in a buffer of `n` bytes when it succeeds and
the source delivers the bytes `stream 0, stream 1, ...`. -/
def fillRandom (n : Nat) (stream : Nat → Nat) : Bytes :=
  (List.range n).map (fun i => stream i % 256)

/-- The text of `fmt.Errorf("invalid key size for %s: expected ..., got %d", ...)`. -/
def invalidKeySizeMsg (algorithm expected : String) (size : Int) : String :=
  "invalid key size for " ++ algorithm ++ ": expected " ++ expected ++ ", got "
    ++ toString size

/-- The `switch algorithm` of `GenerateKey`: the length of the buffer that is
allocated, or the error that is returned. -/
def generateKeyBuffer (algorithm : String) (size : Int) : Except String Nat :=
  if algorithm = "AES-256-GCM" ∨ algorithm = "ChaCha20-Poly1305" then
    if size ≠ 256 then .error (invalidKeySizeMsg algorithm "256" size) else .ok 32
  else if algorithm = "AES-192-GCM" then
    if size ≠ 192 then .error (invalidKeySizeMsg algorithm "192" size) else .ok 24
  else if algorithm = "AES-128-GCM" then
    if size ≠ 128 then .error (invalidKeySizeMsg algorithm "128" size) else .ok 16
  else
    .error ("unsupported algorithm: " ++ algorithm)

/-- The results `(keyID, key, err)` of `GenerateKey`. -/
structure GenerateKeyResult where
  keyID : String
  key : Option Bytes
  err : Option String
  deriving DecidableEq, Repr

/-- The method `keyServiceImpl.GenerateKey`. `newUUID` is the value of
`uuid.New().String()`; `rand` is the outcome of the call `rand.Read(key)`:
an error text, or the bytes the source delivers. -/
def GenerateKey (newUUID : String) (rand : Except String (Nat → Nat))
    (algorithm : String) (size : Int) : GenerateKeyResult :=
  match generateKeyBuffer algorithm size with
  | .error e => { keyID := "", key := none, err := some e }
  | .ok n =>
    match rand with
    | .error e =>
      { keyID := "", key := none,
        err := some ("failed to generate random key: " ++ e) }
    | .ok stream => { keyID := newUUID, key := some (fillRandom n stream), err := none }

/-- The results `(keyID, privateKey, publicKey, err)` of `GenerateKeyPair`. -/
structure GenerateKeyPairResult where
  keyID : String
  privateKey : Option Bytes
  publicKey : Option Bytes
  err : Option String
  deriving DecidableEq, Repr

/-- The method `keyServiceImpl.GenerateKeyPair`. The result is `none` when
`make([]byte, size/8)` panics (`makeslice: len out of range`), which the
runtime does for a negative length (Go's `/` truncates toward zero) and for a
length of more than `maxAlloc` bytes; `randPrivate` and `randPublic` are the
outcomes of the two calls of `rand.Read`. -/
def GenerateKeyPair (newUUID : String)
    (randPrivate randPublic : Except String (Nat → Nat))
    (algorithm : String) (size : Int) : Option GenerateKeyPairResult :=
  if algorithm = "RSA-OAEP" then
    if Int.tdiv size 8 < 0 ∨ Int.tdiv size 8 > maxAlloc then none
    else
      match randPrivate with
      | .error e =>
        some { keyID := "", privateKey := none, publicKey := none,
               err := some ("failed to generate private key: " ++ e) }
      | .ok streamPrivate =>
        match randPublic with
        | .error e =>
          some { keyID := "", privateKey := none, publicKey := none,
                 err := some ("failed to generate public key: " ++ e) }
        | .ok streamPublic =>
          some { keyID := newUUID,
                 privateKey := some (fillRandom (Int.tdiv size 8).toNat streamPrivate),
                 publicKey := some (fillRandom (Int.tdiv size 8).toNat streamPublic),
                 err := none }
  else
    some { keyID := "", privateKey := none, publicKey := none,
           err := some ("unsupported algorithm for key pair generation: " ++ algorithm) }

/-- The method `keyServiceImpl.StoreKey`: it prints a line and returns `nil`. -/
def StoreKey (s : keyServiceImpl) (_keyID : String) (_key : Bytes)
    (_metadata : KeyMetadata) : keyServiceImpl × Option String :=
  (s, none)

/-- The method `keyServiceImpl.RetrieveKey`. -/
def RetrieveKey (_s : keyServiceImpl) (_keyID : String) :
    Option Bytes × Option KeyMetadata × Option String :=
  (none, none, some "key retrieval not implemented")

/-- The method `keyServiceImpl.ListKeys`: the empty, non-nil slice. -/
def ListKeys (_s : keyServiceImpl) : Option (List KeyInfo) × Option String :=
  (some [], none)

/-- The method `keyServiceImpl.GetKeyMetadata`; `nowCreated` and `nowUpdated`
are the values of its two calls of `time.Now()`. -/
def GetKeyMetadata (_s : keyServiceImpl) (nowCreated nowUpdated : Int)
    (_keyID : String) : Option KeyMetadata × Option String :=
  (some { Algorithm := "AES-256-GCM", Size := 256, CreatedAt := nowCreated,
          UpdatedAt := nowUpdated, ExpiresAt := none, RevokedAt := none,
          Labels := [], Description := "", Version := 1 }, none)

/-! ## Rotation service -/

/-- A signed 64-bit value after wrap-around. -/
def wrapInt64 (x : Int) : Int :=
  (x + 2 ^ 63) % 2 ^ 64 - 2 ^ 63

/-- The constant `time.Hour` in nanoseconds. -/
def timeHour : Int := 3600000000000

/-- The expression `time.Duration(s.config.KeyRotationPeriod) * 24 * time.Hour`. -/
def rotationPeriodDuration (s : rotationServiceImpl) : Int :=
  wrapInt64 (wrapInt64 (wrapInt64 s.config.KeyRotationPeriod * 24) * timeHour)

/-- The method `rotationServiceImpl.RotateKey`: it prints a line and returns
the fixed identifier. -/
def RotateKey (s : rotationServiceImpl) (_keyID : String) :
    rotationServiceImpl × String × Option String :=
  (s, "new-key-id", none)

/-- The method `rotationServiceImpl.ScheduleRotation`: it prints a line and
returns `nil`. -/
def ScheduleRotation (s : rotationServiceImpl) (_keyID : String) (_interval : Int) :
    rotationServiceImpl × Option String :=
  (s, none)

/-- The method `rotationServiceImpl.GetRotationSchedule`; `now` is the value of
`time.Now()`. -/
def GetRotationSchedule (s : rotationServiceImpl) (now : Int) (keyID : String) :
    Option RotationSchedule × Option String :=
  (some { KeyID := keyID, Interval := rotationPeriodDuration s,
          NextRotate := now + rotationPeriodDuration s, Enabled := true }, none)

/-! ## Replication service -/

/-- The method `replicationServiceImpl.ReplicateKey`: it prints a line and
returns `nil`. -/
def ReplicateKey (s : replicationServiceImpl) (_keyID : String)
    (_regions : List String) : replicationServiceImpl × Option String :=
  (s, none)

/-- The method `replicationServiceImpl.BackupKey`: it prints a line and
returns `nil`. -/
def BackupKey (s : replicationServiceImpl) (_keyID : String) (_destination : String) :
    replicationServiceImpl × Option String :=
  (s, none)

/-- The method `replicationServiceImpl.ListBackups`: the empty, non-nil slice. -/
def ListBackups (_s : replicationServiceImpl) :
    Option (List BackupInfo) × Option String :=
  (some [], none)

/-! ## Sequences of lifecycle calls -/

/-- The key and rotation services side by side, as in the struct `Services`. -/
structure LifecycleServices where
  Key : keyServiceImpl
  Rotation : rotationServiceImpl
  deriving DecidableEq, Repr

/-- One call of the key lifecycle: `GenerateKey`, `StoreKey` or `RotateKey`,
with its arguments. -/
inductive LifecycleCall where
  | generateKey (newUUID : String) (rand : Except String (Nat → Nat))
      (algorithm : String) (size : Int)
  | storeKey (keyID : String) (key : Bytes) (metadata : KeyMetadata)
  | rotateKey (keyID : String)

/-- The services after one lifecycle call. `GenerateKey` does not use its
receiver. -/
def applyCall (s : LifecycleServices) : LifecycleCall → LifecycleServices
  | .generateKey _ _ _ _ => s
  | .storeKey keyID key metadata =>
    { s with Key := (StoreKey s.Key keyID key metadata).1 }
  | .rotateKey keyID => { s with Rotation := (RotateKey s.Rotation keyID).1 }

/-- The services after a sequence of lifecycle calls. -/
def applyCalls (s : LifecycleServices) (calls : List LifecycleCall) : LifecycleServices :=
  calls.foldl applyCall s

/-! ## Further methods of the key management services -/

/-- The method `rotationServiceImpl.CancelRotation`: it prints a line and
returns `nil`. -/
def CancelRotation (s : rotationServiceImpl) (_keyID : String) :
    rotationServiceImpl × Option String :=
  (s, none)

/-- The method `replicationServiceImpl.RestoreKey`: it prints a line and
returns `nil`. -/
def RestoreKey (s : replicationServiceImpl) (_backupID : String)
    (_destination : String) : replicationServiceImpl × Option String :=
  (s, none)

/-- The method `shamirServiceImpl.DistributeKey`: it prints a line and returns
`nil`. As for `SplitSecret`, the receiver is not used and is left out. -/
def DistributeKey (_keyID : String) (_threshold _shares : Int)
    (_recipients : List String) : Option String :=
  none

/-! ## Standard Base64

`base64.StdEncoding.EncodeToString` of Go's standard library: groups of three
bytes become four characters of the alphabet `A-Z a-z 0-9 + /`, and a last
group of one or two bytes is padded with `=`. Bytes are values below 256. -/

/-- The 64 characters of the standard alphabet. -/
def base64Alphabet : List Char :=
  "ABCDEFGHIJKLMNOPQRSTUVWXYZabcdefghijklmnopqrstuvwxyz0123456789+/".toList

/-- The character for a 6-bit value. -/
def base64Char (v : Nat) : Char :=
  base64Alphabet.getD (v % 64) (Char.ofNat 65)

/-- The padding character `=`. -/
def base64Pad : Char := Char.ofNat 61

/-- The characters of the standard Base64 encoding of a byte string. -/
def base64Chars : Bytes → List Char
  | [] => []
  | [a] =>
    [base64Char (a / 4), base64Char (a % 4 * 16), base64Pad, base64Pad]
  | [a, b] =>
    [base64Char (a / 4), base64Char (a % 4 * 16 + b / 16), base64Char (b % 16 * 4),
      base64Pad]
  | a :: b :: c :: rest =>
    base64Char (a / 4) :: base64Char (a % 4 * 16 + b / 16) ::
      base64Char (b % 16 * 4 + c / 64) :: base64Char c :: base64Chars rest

/-- The function `base64.StdEncoding.EncodeToString`. -/
def base64StdEncodeToString (src : Bytes) : String :=
  String.mk (base64Chars src)

/-! ## Key handler -/

/-- What the handler `KeyHandler.RetrieveKey` does with a request: one of its
three JSON answers, or the run-time panic of reading a field through a nil
`metadata` pointer. -/
inductive RetrieveKeyOutcome where
  | badRequest (message : String)
  | internalServerError (message : String)
  | nilDereference
  | ok (keyB64 : String) (metadata : KeyMetadata)
  deriving DecidableEq, Repr

/-- The handler `KeyHandler.RetrieveKey`. `bound` is the outcome of
`c.ShouldBindJSON(&req)`: an error text, or the `KeyID` of the request. A nil
key encodes as the empty string. -/
def KeyHandler.RetrieveKey (s : keyServiceImpl) (bound : Except String String) :
    RetrieveKeyOutcome :=
  match bound with
  | .error e => .badRequest e
  | .ok keyID =>
    match CryptoFortress.RetrieveKey s keyID with
    | (_, _, some _) => .internalServerError "Failed to retrieve key"
    | (_, none, none) => .nilDereference
    | (key, some metadata, none) => .ok (base64StdEncodeToString (key.getD [])) metadata

/-! ## Authentication service: roles, permissions, TOTP

The methods of `auth/internal/services` below do not use their receiver, which
is left out. -/

/-- The map literal `permissions` of `CheckPermission`, as a lookup. -/
def checkPermissionTable (userID : String) : Option (List String) :=
  if userID = "user-123" then some ["read:data", "write:own_data"]
  else if userID = "manager" then some ["read:data", "write:data", "manage:users"]
  else none

/-- The method `rbacServiceImpl.CheckPermission`. -/
def CheckPermission (userID permissionName : String) : Bool × Option String :=
  if userID = "admin" then (true, none)
  else
    match checkPermissionTable userID with
    | none => (false, none)
    | some userPerms => (userPerms.any (fun perm => perm == permissionName), none)

/-- The method `rbacServiceImpl.GetUserRoles`. -/
def GetUserRoles (userID : String) : List String × Option String :=
  if userID = "admin" then (["admin", "user", "manager"], none)
  else if userID = "user-123" then (["user"], none)
  else if userID = "manager" then (["user", "manager"], none)
  else ([], none)

/-- The method `rbacServiceImpl.GetRolePermissions`. -/
def GetRolePermissions (roleName : String) : List String × Option String :=
  if roleName = "admin" then
    (["read:data", "write:data", "delete:data", "manage:users", "manage:roles"], none)
  else if roleName = "user" then (["read:data", "write:own_data"], none)
  else if roleName = "manager" then (["read:data", "write:data", "manage:users"], none)
  else ([], none)

/-- The relation the role tables define, in the words of the claim: the
permission is among `GetRolePermissions r` for some role `r` of
`GetUserRoles userID`. -/
def permittedByRoleTables (userID permissionName : String) : Prop :=
  ∃ r ∈ (GetUserRoles userID).1, permissionName ∈ (GetRolePermissions r).1

/-- The method `mfaServiceImpl.EnableTOTP`; `rand` is the outcome of
`rand.Read(secret)` on the buffer of 20 bytes. -/
def EnableTOTP (rand : Except String (Nat → Nat)) (_userID : String) :
    String × Option String :=
  match rand with
  | .error e => ("", some ("failed to generate TOTP secret: " ++ e))
  | .ok stream => (base64StdEncodeToString (fillRandom 20 stream), none)

/-- The Base32 alphabet `A-Z`, `2-7`. -/
def base32Alphabet : List Char :=
  "ABCDEFGHIJKLMNOPQRSTUVWXYZ234567".toList

/-! ## Loading the configuration

`config.Load` reads the environment, which is a function from variable names
to values (`os.Getenv`, the empty string for an unset variable). A Go string
is a Lean `String`. The functions of Go's standard library that `Load` calls
are given with their documented behaviour. -/

/-- The value of a decimal digit character, if it is one. -/
def decimalDigit (c : Char) : Option Nat :=
  if 48 ≤ c.toNat ∧ c.toNat ≤ 57 then some (c.toNat - 48) else none

/-- The number written by a list of decimal digits, most significant first, on
top of the value `acc` read so far; `none` when a character is no digit. -/
def readDecimal (acc : Nat) : List Char → Option Nat
  | [] => some acc
  | c :: cs =>
    match decimalDigit c with
    | none => none
    | some d => readDecimal (acc * 10 + d) cs

/-- The text of the error of `strconv.Atoi`. -/
def atoiError (str reason : String) : String :=
  "strconv.Atoi: parsing " ++ str.quote ++ ": " ++ reason

/-- The characters of the argument of `strconv.Atoi` after its optional sign. -/
def atoiDigits (str : String) : List Char :=
  match str.toList with
  | [] => []
  | c :: cs => if c.toNat = 45 ∨ c.toNat = 43 then cs else c :: cs

/-- Whether the argument of `strconv.Atoi` starts with the sign `-`. -/
def atoiNegative (str : String) : Bool :=
  match str.toList with
  | [] => false
  | c :: _ => c.toNat = 45

/-- The range check of `strconv.Atoi` for a 64-bit `int`. -/
def atoiRangeCheck (str : String) (v : Int) : Except String Int :=
  if v < -(2 ^ 63) ∨ 2 ^ 63 - 1 < v then .error (atoiError str "value out of range")
  else .ok v

/-- The function `strconv.Atoi` for a 64-bit `int`: an optional sign `+` or `-`,
then one or more decimal digits; a value outside the 64-bit range is an error. -/
def Atoi (str : String) : Except String Int :=
  if atoiDigits str = [] then .error (atoiError str "invalid syntax")
  else
    match readDecimal 0 (atoiDigits str) with
    | none => .error (atoiError str "invalid syntax")
    | some n => atoiRangeCheck str (if atoiNegative str then -(n : Int) else (n : Int))

/-- The function `strconv.ParseBool`. -/
def ParseBool (str : String) : Except String Bool :=
  if str ∈ ["1", "t", "T", "TRUE", "true", "True"] then .ok true
  else if str ∈ ["0", "f", "F", "FALSE", "false", "False"] then .ok false
  else .error ("strconv.ParseBool: parsing " ++ str.quote ++ ": invalid syntax")

/-- The comma. -/
def comma : Char := Char.ofNat 44

/-- The pieces of a list of characters between its commas, as
`strings.Split(s, ",")` cuts them. -/
def splitAtCommas : List Char → List (List Char)
  | [] => [[]]
  | c :: cs =>
    if c = comma then [] :: splitAtCommas cs
    else
      match splitAtCommas cs with
      | [] => [[c]]
      | piece :: pieces => (c :: piece) :: pieces

/-- The call `strings.Split(s, ",")`. -/
def splitCommas (str : String) : List String :=
  (splitAtCommas str.toList).map String.mk

/-- The predicate `unicode.IsSpace`. -/
def isSpace (c : Char) : Bool :=
  (9 ≤ c.toNat ∧ c.toNat ≤ 13) ∨ c.toNat = 32 ∨ c.toNat = 133 ∨ c.toNat = 160 ∨
  c.toNat = 5760 ∨ (8192 ≤ c.toNat ∧ c.toNat ≤ 8202) ∨ c.toNat = 8232 ∨
  c.toNat = 8233 ∨ c.toNat = 8239 ∨ c.toNat = 8287 ∨ c.toNat = 12288

/-- The function `strings.TrimSpace`: the string without its leading and
trailing white space. -/
def TrimSpace (str : String) : String :=
  String.mk ((str.toList.dropWhile isSpace).reverse.dropWhile isSpace).reverse

/-- The function `getEnv`. -/
def getEnv (env : String → String) (key defaultValue : String) : String :=
  if env key ≠ "" then env key else defaultValue

/-- The region list `Load` builds from the value of `REPLICATION_REGIONS`: nil
for the empty string, else the trimmed pieces appended one by one. -/
def parseRegions (regionsStr : String) : List String :=
  if regionsStr ≠ "" then
    (splitCommas regionsStr).foldl (fun regions region => regions ++ [TrimSpace region]) []
  else []

/-- The function `config.Load`. -/
def Load (env : String → String) : Except String Config :=
  match Atoi (getEnv env "KEY_ROTATION_PERIOD" "90") with
  | .error e => .error ("invalid KEY_ROTATION_PERIOD: " ++ e)
  | .ok rotationPeriod =>
    match Atoi (getEnv env "SHAMIR_THRESHOLD" "2") with
    | .error e => .error ("invalid SHAMIR_THRESHOLD: " ++ e)
    | .ok threshold =>
      match Atoi (getEnv env "SHAMIR_SHARES" "3") with
      | .error e => .error ("invalid SHAMIR_SHARES: " ++ e)
      | .ok shares =>
        match ParseBool (getEnv env "REPLICATION_ENABLED" "false") with
        | .error e => .error ("invalid REPLICATION_ENABLED: " ++ e)
        | .ok replicationEnabled =>
          .ok { Port := getEnv env "KEYMGMT_SERVICE_PORT" "8082",
                DatabaseURL := env "DATABASE_URL",
                VaultAddr := env "VAULT_ADDR",
                VaultToken := env "VAULT_TOKEN",
                KeyRotationPeriod := rotationPeriod,
                ShamirThreshold := threshold,
                ShamirShares := shares,
                ReplicationEnabled := replicationEnabled,
                ReplicationRegions := parseRegions (getEnv env "REPLICATION_REGIONS" "") }

/-- An environment in which only `SHAMIR_THRESHOLD` = 5 and `SHAMIR_SHARES` = 3
are set. -/
def envThresholdAboveShares (name : String) : String :=
  if name = "SHAMIR_THRESHOLD" then "5"
  else if name = "SHAMIR_SHARES" then "3"
  else ""

/-- An environment in which only `REPLICATION_REGIONS` is set, to
`eu-west, us-east ,,ap`. -/
def envRegions (name : String) : String :=
  if name = "REPLICATION_REGIONS" then "eu-west, us-east ,,ap" else ""

/-! ## Scenario values for the key lifecycle -/

/-- The metadata of an AES-256-GCM key in its first version, not revoked. -/
def sampleMetadata : KeyMetadata :=
  { Algorithm := "AES-256-GCM", Size := 256, CreatedAt := 0, UpdatedAt := 0,
    ExpiresAt := none, RevokedAt := none, Labels := [], Description := "",
    Version := 1 }

/-- The key and rotation services built on the default configuration. -/
def defaultServices : LifecycleServices :=
  { Key := { config := defaultConfig }, Rotation := { config := defaultConfig } }

/-- The calls `RotateKey(keyID)` of several callers, one entry of the list per
caller, taken in the order in which they run; the result is the service after
the last call and what each caller got back, `(newKeyID, err)`. `RotateKey`
reads and writes no shared state, so calls made concurrently behave as the
same calls made one after the other, in any order. -/
def rotateKeyCalls (s : rotationServiceImpl) :
    List String → rotationServiceImpl × List (String × Option String)
  | [] => (s, [])
  | keyID :: rest =>
    ((rotateKeyCalls (RotateKey s keyID).1 rest).1,
      ((RotateKey s keyID).2.1, (RotateKey s keyID).2.2)
        :: (rotateKeyCalls (RotateKey s keyID).1 rest).2)

/-! ## Auxiliary facts -/

/-- A slice of at most 11728124029610 slice headers stays within `maxAlloc`. -/
theorem sliceFits_iff (shares : Int) :
    ¬ sliceHeaderSize * shares > maxAlloc ↔ shares ≤ 11728124029610 := by
  unfold sliceHeaderSize maxAlloc
  have h48 : (2 : Int) ^ 48 = 281474976710656 := by norm_num
  rw [h48]
  omega

/-- With `1 ≤ threshold ≤ shares` and a slice within the allocation limit both
checks pass, `make` does not panic and the loop result is returned. -/
theorem SplitSecret_of_valid (secret : Bytes) (threshold shares : Int)
    (ht : 1 ≤ threshold) (hts : threshold ≤ shares) (hmax : shares ≤ 11728124029610) :
    SplitSecret secret threshold shares
      = some (some ((List.range shares.toNat).map placeholderShare), none) := by
  have h1 : ¬ threshold > shares := by omega
  have h2 : ¬ (threshold < 1 ∨ shares < 1) := by omega
  have h3 : ¬ sliceHeaderSize * shares > maxAlloc := (sliceFits_iff shares).mpr hmax
  simp only [SplitSecret, if_neg h1, if_neg h2, if_neg h3]

/-- With `1 ≤ threshold ≤ shares` and a slice beyond the allocation limit the
call panics. -/
theorem SplitSecret_of_too_long (secret : Bytes) (threshold shares : Int)
    (ht : 1 ≤ threshold) (hts : threshold ≤ shares)
    (hmax : sliceHeaderSize * shares > maxAlloc) :
    SplitSecret secret threshold shares = none := by
  have h1 : ¬ threshold > shares := by omega
  have h2 : ¬ (threshold < 1 ∨ shares < 1) := by omega
  simp only [SplitSecret, if_neg h1, if_neg h2, if_pos hmax]

/-- A call of `SplitSecret` that returns a `nil` error passed both checks and
the allocation, and returned the loop result. -/
theorem valid_of_SplitSecret_ok (secret : Bytes) (threshold shares : Int)
    (r : Option (List Bytes)) (h : SplitSecret secret threshold shares = some (r, none)) :
    1 ≤ threshold ∧ threshold ≤ shares ∧ shares ≤ 11728124029610 ∧
      r = some ((List.range shares.toNat).map placeholderShare) := by
  unfold SplitSecret at h
  by_cases h1 : threshold > shares
  · simp [if_pos h1] at h
  · by_cases h2 : threshold < 1 ∨ shares < 1
    · simp [if_neg h1, if_pos h2] at h
    · by_cases h3 : sliceHeaderSize * shares > maxAlloc
      · simp [if_neg h1, if_neg h2, if_pos h3] at h
      · simp only [if_neg h1, if_neg h2, if_neg h3, Option.some.injEq, Prod.mk.injEq,
          and_true] at h
        exact ⟨by omega, by omega, (sliceFits_iff shares).mp h3, h.symm⟩

/-- The first check: `threshold > shares` gives a `nil` slice and an error. -/
theorem SplitSecret_of_threshold_gt (secret : Bytes) (threshold shares : Int)
    (h : threshold > shares) :
    SplitSecret secret threshold shares
      = some (none, some (thresholdGreaterMsg threshold shares)) := by
  simp only [SplitSecret, if_pos h]

/-- The second check: `threshold < 1` or `shares < 1`, with `threshold ≤ shares`,
gives a `nil` slice and an error. -/
theorem SplitSecret_of_not_positive (secret : Bytes) (threshold shares : Int)
    (h1 : ¬ threshold > shares) (h2 : threshold < 1 ∨ shares < 1) :
    SplitSecret secret threshold shares
      = some (none, some "threshold and shares must be positive integers") := by
  simp only [SplitSecret, if_neg h1, if_pos h2]

/-- Every call of `RotateKey` returns the fixed identifier and a `nil` error
and leaves the service as it was, however many callers there are. -/
theorem rotateKeyCalls_eq (s : rotationServiceImpl) (keyIDs : List String) :
    rotateKeyCalls s keyIDs = (s, keyIDs.map (fun _ => ("new-key-id", none))) := by
  induction keyIDs with
  | nil => rfl
  | cons k ks ih =>
    unfold rotateKeyCalls
    have hs : (RotateKey s k).1 = s := rfl
    rw [hs, ih]
    rfl

/-- `CombineShares` ignores its argument. -/
theorem CombineShares_const (shares : List Bytes) :
    CombineShares shares = (some reconstructedSecret, none) := rfl

/-- The buffer filled by `rand.Read` keeps its length. -/
theorem length_fillRandom (n : Nat) (stream : Nat → Nat) :
    (fillRandom n stream).length = n := by
  simp [fillRandom]

/-- When the `switch` of `GenerateKey` allocates a buffer, the algorithm, the
size and the buffer length form one of the four supported combinations. -/
theorem generateKeyBuffer_ok (algorithm : String) (size : Int) (n : Nat)
    (h : generateKeyBuffer algorithm size = .ok n) :
    (algorithm = "AES-128-GCM" ∧ size = 128 ∧ n = 16) ∨
    (algorithm = "AES-192-GCM" ∧ size = 192 ∧ n = 24) ∨
    (algorithm = "AES-256-GCM" ∧ size = 256 ∧ n = 32) ∨
    (algorithm = "ChaCha20-Poly1305" ∧ size = 256 ∧ n = 32) := by
  unfold generateKeyBuffer at h
  split_ifs at h with h1 h2 h3 h4 h5 h6
  · have hn : n = 32 := by
      injection h with h'
      exact h'.symm
    have hs : size = 256 := not_not.mp h2
    rcases h1 with h1 | h1
    · exact Or.inr (Or.inr (Or.inl ⟨h1, hs, hn⟩))
    · exact Or.inr (Or.inr (Or.inr ⟨h1, hs, hn⟩))
  · have hn : n = 24 := by
      injection h with h'
      exact h'.symm
    exact Or.inr (Or.inl ⟨h3, not_not.mp h4, hn⟩)
  · have hn : n = 16 := by
      injection h with h'
      exact h'.symm
    exact Or.inl ⟨h5, not_not.mp h6, hn⟩

/-- The `switch` of `GenerateKey` allocates a buffer for each of the four
supported combinations. -/
theorem generateKeyBuffer_of_supported (algorithm : String) (size : Int)
    (h : (algorithm = "AES-128-GCM" ∧ size = 128) ∨
      (algorithm = "AES-192-GCM" ∧ size = 192) ∨
      (algorithm = "AES-256-GCM" ∧ size = 256) ∨
      (algorithm = "ChaCha20-Poly1305" ∧ size = 256)) :
    ∃ n, generateKeyBuffer algorithm size = .ok n := by
  rcases h with ⟨ha, hs⟩ | ⟨ha, hs⟩ | ⟨ha, hs⟩ | ⟨ha, hs⟩ <;> subst ha <;> subst hs
  · exact ⟨16, rfl⟩
  · exact ⟨24, rfl⟩
  · exact ⟨32, rfl⟩
  · exact ⟨32, rfl⟩

/-- No lifecycle call changes the services. -/
theorem applyCall_eq (s : LifecycleServices) (c : LifecycleCall) : applyCall s c = s := by
  cases c <;> rfl

/-- No sequence of lifecycle calls changes the services. -/
theorem applyCalls_eq (s : LifecycleServices) (calls : List LifecycleCall) :
    applyCalls s calls = s := by
  induction calls with
  | nil => rfl
  | cons c cs ih =>
    show applyCalls (applyCall s c) cs = s
    rw [applyCall_eq]
    exact ih

/-- A value inside the signed 64-bit range is left as it is by the wrap-around. -/
theorem wrapInt64_of_inRange (x : Int) (hlo : -9223372036854775808 ≤ x)
    (hhi : x ≤ 9223372036854775807) : wrapInt64 x = x := by
  unfold wrapInt64
  have h63 : (2 : Int) ^ 63 = 9223372036854775808 := by norm_num
  have h64 : (2 : Int) ^ 64 = 18446744073709551616 := by norm_num
  rw [h63, h64]
  omega

/-- For a rotation period between 0 and 106751 days the duration computed by
`GetRotationSchedule` is the exact product. -/
theorem rotationPeriodDuration_exact (s : rotationServiceImpl)
    (h0 : 0 ≤ s.config.KeyRotationPeriod) (h1 : s.config.KeyRotationPeriod ≤ 106751) :
    rotationPeriodDuration s = s.config.KeyRotationPeriod * 86400 * 10 ^ 9 := by
  unfold rotationPeriodDuration timeHour
  rw [wrapInt64_of_inRange s.config.KeyRotationPeriod (by omega) (by omega)]
  rw [wrapInt64_of_inRange (s.config.KeyRotationPeriod * 24) (by omega) (by omega)]
  rw [wrapInt64_of_inRange (s.config.KeyRotationPeriod * 24 * 3600000000000)
    (by omega) (by omega)]
  have h9 : (10 : Int) ^ 9 = 1000000000 := by norm_num
  rw [h9]
  omega

/-- A value that passes the range check lies in the signed 64-bit range. -/
theorem atoiRangeCheck_inRange (str : String) (v w : Int)
    (h : atoiRangeCheck str v = .ok w) : -(2 ^ 63) ≤ w ∧ w ≤ 2 ^ 63 - 1 := by
  unfold atoiRangeCheck at h
  split_ifs at h with hr
  injection h with h
  subst h
  exact ⟨not_lt.mp (fun hc => hr (Or.inl hc)), not_lt.mp (fun hc => hr (Or.inr hc))⟩

/-- A value `strconv.Atoi` returns lies in the signed 64-bit range. -/
theorem Atoi_inRange (str : String) (v : Int) (h : Atoi str = .ok v) :
    -(2 ^ 63) ≤ v ∧ v ≤ 2 ^ 63 - 1 := by
  unfold Atoi at h
  split at h
  · cases h
  · split at h
    · cases h
    · exact atoiRangeCheck_inRange _ _ _ h

/-- A successful `Load` has taken its three numbers from `strconv.Atoi` and its
region list from `parseRegions`. -/
theorem Load_ok_fields (env : String → String) (cfg : Config) (h : Load env = .ok cfg) :
    Atoi (getEnv env "KEY_ROTATION_PERIOD" "90") = .ok cfg.KeyRotationPeriod ∧
    Atoi (getEnv env "SHAMIR_THRESHOLD" "2") = .ok cfg.ShamirThreshold ∧
    Atoi (getEnv env "SHAMIR_SHARES" "3") = .ok cfg.ShamirShares ∧
    cfg.ReplicationRegions = parseRegions (getEnv env "REPLICATION_REGIONS" "") := by
  unfold Load at h
  cases h1 : Atoi (getEnv env "KEY_ROTATION_PERIOD" "90") with
  | error e => rw [h1] at h; cases h
  | ok p =>
    cases h2 : Atoi (getEnv env "SHAMIR_THRESHOLD" "2") with
    | error e => rw [h1, h2] at h; cases h
    | ok t =>
      cases h3 : Atoi (getEnv env "SHAMIR_SHARES" "3") with
      | error e => rw [h1, h2, h3] at h; cases h
      | ok n =>
        cases h4 : ParseBool (getEnv env "REPLICATION_ENABLED" "false") with
        | error e => rw [h1, h2, h3, h4] at h; cases h
        | ok b =>
          rw [h1, h2, h3, h4] at h
          injection h with h
          subst h
          exact ⟨rfl, rfl, rfl, rfl⟩

/-- Cutting at commas always gives at least one piece. -/
theorem splitAtCommas_ne_nil (cs : List Char) : splitAtCommas cs ≠ [] := by
  cases cs with
  | nil => simp [splitAtCommas]
  | cons c cs =>
    unfold splitAtCommas
    split_ifs
    · simp
    · split <;> simp

/-- Cutting at commas gives one piece more than there are commas. -/
theorem length_splitAtCommas (cs : List Char) :
    (splitAtCommas cs).length = cs.count comma + 1 := by
  induction cs with
  | nil => simp [splitAtCommas]
  | cons c cs ih =>
    unfold splitAtCommas
    split_ifs with hc
    · subst hc
      simp [ih]
    · have hcount : (c :: cs).count comma = cs.count comma := by
        rw [List.count_cons_of_ne (Ne.symm hc)]
      split
      · rename_i hnil
        exact absurd hnil (splitAtCommas_ne_nil cs)
      · rename_i piece pieces heq
        rw [heq] at ih
        rw [hcount]
        simpa using ih

/-- The pieces, joined again with commas, give the list that was cut. -/
theorem intercalate_splitAtCommas (cs : List Char) :
    List.intercalate [comma] (splitAtCommas cs) = cs := by
  induction cs with
  | nil => simp [splitAtCommas, List.intercalate]
  | cons c cs ih =>
    unfold splitAtCommas
    split_ifs with hc
    · subst hc
      cases hs : splitAtCommas cs with
      | nil => exact absurd hs (splitAtCommas_ne_nil cs)
      | cons q qs =>
        rw [hs] at ih
        simp [List.intercalate, List.intersperse] at ih ⊢
        exact ih
    · split
      · rename_i hnil
        exact absurd hnil (splitAtCommas_ne_nil cs)
      · rename_i piece pieces heq
        rw [heq] at ih
        cases pieces with
        | nil => simp [List.intercalate, List.intersperse] at ih ⊢; exact ih
        | cons q qs => simp [List.intercalate, List.intersperse] at ih ⊢; exact ih

/-- No piece contains a comma. -/
theorem comma_not_mem_of_mem_splitAtCommas (cs : List Char) :
    ∀ piece ∈ splitAtCommas cs, comma ∉ piece := by
  induction cs with
  | nil => simp [splitAtCommas]
  | cons c cs ih =>
    unfold splitAtCommas
    split_ifs with hc
    · intro piece hp
      rcases List.mem_cons.mp hp with h | h
      · subst h; simp
      · exact ih piece h
    · split
      · rename_i hnil
        exact absurd hnil (splitAtCommas_ne_nil cs)
      · rename_i piece pieces heq
        rw [heq] at ih
        intro q hq
        rcases List.mem_cons.mp hq with h | h
        · subst h
          intro hmem
          rcases List.mem_cons.mp hmem with h' | h'
          · exact hc h'.symm
          · exact ih piece (List.mem_cons_self _ _) h'
        · exact ih q (List.mem_cons_of_mem _ h)

/-- Appending the images one by one builds the mapped list. -/
theorem foldl_append_singleton {α β : Type} (f : α → β) (l : List α) (init : List β) :
    l.foldl (fun acc x => acc ++ [f x]) init = init ++ l.map f := by
  induction l generalizing init with
  | nil => simp
  | cons x xs ih => simp [ih]

/-- The characters of a trimmed string. -/
theorem toList_TrimSpace (str : String) :
    (TrimSpace str).toList
      = ((str.toList.dropWhile isSpace).reverse.dropWhile isSpace).reverse := rfl

/-- A list of characters is its trimmed part between two runs of white space. -/
theorem trim_decompose (l : List Char) :
    ∃ pre suf, (∀ c ∈ pre, isSpace c = true) ∧ (∀ c ∈ suf, isSpace c = true) ∧
      l = pre ++ ((l.dropWhile isSpace).reverse.dropWhile isSpace).reverse ++ suf := by
  refine ⟨l.takeWhile isSpace, ((l.dropWhile isSpace).reverse.takeWhile isSpace).reverse,
    fun c hc => List.mem_takeWhile_imp hc,
    fun c hc => List.mem_takeWhile_imp (List.mem_reverse.mp hc), ?_⟩
  have h1 : ((l.dropWhile isSpace).reverse.dropWhile isSpace).reverse
      ++ ((l.dropWhile isSpace).reverse.takeWhile isSpace).reverse
      = l.dropWhile isSpace := by
    rw [← List.reverse_append, List.takeWhile_append_dropWhile, List.reverse_reverse]
  rw [List.append_assoc, h1, List.takeWhile_append_dropWhile]

/-- The trimmed part does not end in white space. -/
theorem trim_getLast_not_space (l : List Char) (c : Char)
    (h : (((l.dropWhile isSpace).reverse.dropWhile isSpace).reverse).getLast? = some c) :
    isSpace c = false := by
  rw [List.getLast?_reverse] at h
  have := List.head?_dropWhile_not isSpace (l.dropWhile isSpace).reverse
  rw [h] at this
  exact this

/-- The trimmed part does not start with white space. -/
theorem trim_head_not_space (l : List Char) (c : Char)
    (h : (((l.dropWhile isSpace).reverse.dropWhile isSpace).reverse).head? = some c) :
    isSpace c = false := by
  have h1 : ((l.dropWhile isSpace).reverse.dropWhile isSpace).reverse
      ++ ((l.dropWhile isSpace).reverse.takeWhile isSpace).reverse
      = l.dropWhile isSpace := by
    rw [← List.reverse_append, List.takeWhile_append_dropWhile, List.reverse_reverse]
  have h2 : (l.dropWhile isSpace).head? = some c := by
    rw [← h1]
    cases ht : ((l.dropWhile isSpace).reverse.dropWhile isSpace).reverse with
    | nil => rw [ht] at h; cases h
    | cons x xs =>
      rw [ht] at h
      simpa using h
  have := List.head?_dropWhile_not isSpace l
  rw [h2] at this
  exact this

/-- The function `getEnv` with the empty default returns the variable itself. -/
theorem getEnv_empty_default (env : String → String) (key : String) :
    getEnv env key "" = env key := by
  unfold getEnv
  split_ifs with h
  · rfl
  · exact (not_not.mp h).symm

/-- The region list of a non-empty value is the list of its trimmed pieces. -/
theorem parseRegions_of_ne (regionsStr : String) (h : regionsStr ≠ "") :
    parseRegions regionsStr
      = (splitAtCommas regionsStr.toList).map (fun piece => TrimSpace (String.mk piece)) := by
  unfold parseRegions splitCommas
  rw [if_pos h, foldl_append_singleton TrimSpace]
  simp [List.map_map, Function.comp_def]

/-! ## C1: round trip -/

/-- C1 (evaluation of the code on the scenario of the claim): splitting the
22-byte secret with t = 3, n = 5 succeeds, yet combining any 3 of the 5
returned shares yields the fixed string `reconstructed-secret`, which is not
the secret, so the round trip does not hold on the code. -/
theorem C1_roundtrip_fails_on_scenario :
    secret22.length = 22 ∧
    SplitSecret secret22 3 5 = some (some ((List.range 5).map placeholderShare), none) ∧
    ∀ sel : List Bytes, sel.Sublist ((List.range 5).map placeholderShare) →
      sel.length = 3 →
      CombineShares sel = (some reconstructedSecret, none) ∧
        (CombineShares sel).1 ≠ some secret22 := by
  refine ⟨by decide, by decide, ?_⟩
  intro sel _ _
  refine ⟨rfl, ?_⟩
  rw [CombineShares_const]
  decide

/-! ## C2: threshold out of range -/

/-- C2: for every secret and all integers threshold, shares, if threshold < 1
or threshold > shares then `SplitSecret` returns, with a non-nil error and a
nil share list. -/
theorem C2_split_rejects_bad_threshold (secret : Bytes) (threshold shares : Int)
    (h : threshold < 1 ∨ threshold > shares) :
    ∃ e, SplitSecret secret threshold shares = some (none, some e) := by
  by_cases h1 : threshold > shares
  · exact ⟨_, SplitSecret_of_threshold_gt secret threshold shares h1⟩
  · have h2 : threshold < 1 ∨ shares < 1 := by omega
    exact ⟨_, SplitSecret_of_not_positive secret threshold shares h1 h2⟩

/-- Witness for C2: threshold 0 with 3 shares. -/
theorem C2_split_rejects_bad_threshold_witness :
    ((0 : Int) < 1 ∨ (0 : Int) > 3) ∧
      ∃ e, SplitSecret secret22 0 3 = some (none, some e) :=
  ⟨by decide, C2_split_rejects_bad_threshold secret22 0 3 (by decide)⟩

/-! ## C3: more than 255 shares -/

/-- C3 (counterexample): with threshold 3 and 256 shares the call returns 256
shares and a nil error, although shares > 255. -/
theorem C3_counterexample :
    (1 : Int) ≤ 3 ∧ (255 : Int) < 256 ∧
      SplitSecret secret22 3 256
        = some (some ((List.range 256).map placeholderShare), none) :=
  ⟨by decide, by decide,
    SplitSecret_of_valid secret22 3 256 (by decide) (by decide) (by decide)⟩

/-- C3 (amended): for every secret, every threshold >= 1 and every shares > 255,
`SplitSecret` returns an error exactly when threshold > shares, so never
because shares exceeds 255; with threshold <= shares <= 65535 it returns
`shares` shares and a nil error; and when the `shares` slice headers exceed the
allocation limit of the runtime (24 * shares > 2^48 bytes) the call panics in
`make` and returns nothing. -/
theorem C3_split_above_255 (secret : Bytes) (threshold shares : Int)
    (ht : 1 ≤ threshold) (hn : 255 < shares) :
    ((∃ e, SplitSecret secret threshold shares = some (none, some e)) ↔
      shares < threshold) ∧
    (threshold ≤ shares → shares ≤ 65535 →
      ∃ l, SplitSecret secret threshold shares = some (some l, none) ∧
        (l.length : Int) = shares) ∧
    (threshold ≤ shares → sliceHeaderSize * shares > maxAlloc →
      SplitSecret secret threshold shares = none) := by
  refine ⟨⟨?_, ?_⟩, ?_, ?_⟩
  · rintro ⟨e, he⟩
    by_contra hc
    have hts : threshold ≤ shares := by omega
    by_cases hmax : sliceHeaderSize * shares > maxAlloc
    · rw [SplitSecret_of_too_long secret threshold shares ht hts hmax] at he
      cases he
    · rw [SplitSecret_of_valid secret threshold shares ht hts
        ((sliceFits_iff shares).mp hmax)] at he
      cases he
  · intro h
    exact ⟨_, SplitSecret_of_threshold_gt secret threshold shares h⟩
  · intro hts hsmall
    refine ⟨_, SplitSecret_of_valid secret threshold shares ht hts (by omega), ?_⟩
    simp only [List.length_map, List.length_range]
    omega
  · intro hts hmax
    exact SplitSecret_of_too_long secret threshold shares ht hts hmax

/-- Witness for the amended C3: threshold 3, 256 shares. -/
theorem C3_split_above_255_witness :
    (1 : Int) ≤ 3 ∧ (255 : Int) < 256 ∧
    (((∃ e, SplitSecret secret22 3 256 = some (none, some e)) ↔ (256 : Int) < 3) ∧
    ((3 : Int) ≤ 256 → (256 : Int) ≤ 65535 →
      ∃ l, SplitSecret secret22 3 256 = some (some l, none) ∧ (l.length : Int) = 256) ∧
    ((3 : Int) ≤ 256 → sliceHeaderSize * 256 > maxAlloc →
      SplitSecret secret22 3 256 = none)) :=
  ⟨by decide, by decide, C3_split_above_255 secret22 3 256 (by decide) (by decide)⟩

/-! ## C4: empty secret -/

/-- C4 (counterexample): an empty secret with t = n = 1 is accepted, with a nil
error and one share. -/
theorem C4_counterexample :
    (1 : Int) ≤ 1 ∧ (1 : Int) ≤ 255 ∧
      SplitSecret [] 1 1 = some (some [placeholderShare 0], none) := by
  decide

/-- C4 (amended): for every t, n with 1 <= t <= n <= 255, `SplitSecret` called
with an empty secret succeeds, returning a nil error and n shares: the secret
is not inspected, so the result is the one of any other secret. -/
theorem C4_split_empty_secret (threshold shares : Int)
    (ht : 1 ≤ threshold) (hts : threshold ≤ shares) (hn : shares ≤ 255) :
    (∃ l, SplitSecret [] threshold shares = some (some l, none) ∧
      (l.length : Int) = shares) ∧
    ∀ secret : Bytes,
      SplitSecret secret threshold shares = SplitSecret [] threshold shares := by
  have hmax : shares ≤ 11728124029610 := by omega
  rw [SplitSecret_of_valid [] threshold shares ht hts hmax]
  refine ⟨⟨_, rfl, ?_⟩, ?_⟩
  · simp only [List.length_map, List.length_range]
    omega
  · intro secret
    exact SplitSecret_of_valid secret threshold shares ht hts hmax

/-- Witness for the amended C4: t = 3, n = 5. -/
theorem C4_split_empty_secret_witness :
    (1 : Int) ≤ 3 ∧ (3 : Int) ≤ 5 ∧ (5 : Int) ≤ 255 ∧
    ((∃ l, SplitSecret [] 3 5 = some (some l, none) ∧ (l.length : Int) = 5) ∧
    ∀ secret : Bytes, SplitSecret secret 3 5 = SplitSecret [] 3 5) :=
  ⟨by decide, by decide, by decide,
    C4_split_empty_secret 3 5 (by decide) (by decide) (by decide)⟩

/-! ## C5: number of shares -/

/-- C5: whenever `SplitSecret secret threshold shares` succeeds, that is,
returns with a nil error, the returned list is non-nil and contains exactly
`shares` shares. -/
theorem C5_split_share_count (secret : Bytes) (threshold shares : Int)
    (r : Option (List Bytes))
    (h : SplitSecret secret threshold shares = some (r, none)) :
    ∃ l, r = some l ∧ (l.length : Int) = shares := by
  obtain ⟨_, _, _, hr⟩ := valid_of_SplitSecret_ok secret threshold shares r h
  refine ⟨_, hr, ?_⟩
  simp only [List.length_map, List.length_range]
  omega

/-- Witness for C5: the 22-byte secret with t = 3, n = 5. -/
theorem C5_split_share_count_witness :
    SplitSecret secret22 3 5 = some (some ((List.range 5).map placeholderShare), none) ∧
    ∃ l, some ((List.range 5).map placeholderShare) = some l ∧ (l.length : Int) = 5 :=
  ⟨by decide, C5_split_share_count secret22 3 5 _ (by decide)⟩

/-! ## C6: share encoding -/

/-- C6 (evaluation of the code on the 22-byte secret, t = 3, n = 5): the call
succeeds, its first share is the text `share-0-of-secret`, every share begins
with the byte 115 (the letter s) instead of its index 1..5, so the first bytes
are not pairwise distinct, and every share has 17 bytes instead of
len(secret) + 1 = 23. -/
theorem C6_share_encoding_fails_on_scenario :
    ∃ l, SplitSecret secret22 3 5 = some (some l, none) ∧
      l[0]? = some (bytesOfString "share-0-of-secret") ∧
      l.map shareTag = [some 115, some 115, some 115, some 115, some 115] ∧
      l.map (fun share => (sharePayload share).length) = [16, 16, 16, 16, 16] ∧
      l.map List.length = [17, 17, 17, 17, 17] ∧
      secret22.length + 1 = 23 :=
  ⟨(List.range 5).map placeholderShare, by decide, by decide, by decide, by decide,
    by decide, by decide⟩

/-! ## C7: duplicate tags -/

/-- C7 (counterexample): two shares with the same tag byte 1 are combined with
a nil error. -/
theorem C7_counterexample :
    shareTag [1, 5] = some 1 ∧ shareTag [1, 7] = some 1 ∧
      (CombineShares [[1, 5], [1, 7]]).2 = none := by
  decide

/-- C7 (amended): `CombineShares` does not reject duplicate x values: for every
share list in which two shares (at different positions) carry the same x tag
byte it returns a nil error and a non-nil byte string. -/
theorem C7_combine_accepts_duplicate_tags (shares : List Bytes) (i j x : Nat)
    (a b : Bytes) (_hij : i ≠ j) (_ha : shares[i]? = some a)
    (_hb : shares[j]? = some b) (_hxa : shareTag a = some x)
    (_hxb : shareTag b = some x) :
    (CombineShares shares).2 = none ∧ (CombineShares shares).1 ≠ none := by
  rw [CombineShares_const]
  exact ⟨rfl, by simp⟩

/-- Witness for the amended C7: the shares `[1, 5]` and `[1, 7]`. -/
theorem C7_combine_accepts_duplicate_tags_witness :
    (CombineShares [[1, 5], [1, 7]]).2 = none ∧
      (CombineShares [[1, 5], [1, 7]]).1 ≠ none :=
  C7_combine_accepts_duplicate_tags [[1, 5], [1, 7]] 0 1 1 [1, 5] [1, 7]
    (by decide) rfl rfl rfl rfl

/-! ## C8: payload lengths -/

/-- C8 (counterexample): shares with payloads of 1 and 2 bytes are combined
with a nil error. -/
theorem C8_counterexample :
    (sharePayload [1, 5]).length ≠ (sharePayload [2, 7, 8]).length ∧
      (CombineShares [[1, 5], [2, 7, 8]]).2 = none := by
  decide

/-- C8 (amended): `CombineShares` does not compare payload lengths: for every
share list containing two shares whose payload lengths differ it returns a nil
error and a non-nil byte string. -/
theorem C8_combine_accepts_mismatched_lengths (shares : List Bytes) (a b : Bytes)
    (_ha : a ∈ shares) (_hb : b ∈ shares)
    (_hlen : (sharePayload a).length ≠ (sharePayload b).length) :
    (CombineShares shares).2 = none ∧ (CombineShares shares).1 ≠ none := by
  rw [CombineShares_const]
  exact ⟨rfl, by simp⟩

/-- Witness for the amended C8: the shares `[1, 5]` and `[2, 7, 8]`. -/
theorem C8_combine_accepts_mismatched_lengths_witness :
    (CombineShares [[1, 5], [2, 7, 8]]).2 = none ∧
      (CombineShares [[1, 5], [2, 7, 8]]).1 ≠ none :=
  C8_combine_accepts_mismatched_lengths [[1, 5], [2, 7, 8]] [1, 5] [2, 7, 8]
    (by simp) (by simp) (by decide)

/-! ## C9: determinism across subsets -/

/-- C9: for every successful `SplitSecret S t n` with returned shares `l`, and
any two different selections `A`, `B` of `t` distinct shares out of `l`,
`CombineShares` gives the same result on both: the same bytes and a nil error. -/
theorem C9_combine_same_on_subsets (S : Bytes) (t n : Int) (l A B : List Bytes)
    (_hsplit : SplitSecret S t n = some (some l, none))
    (_hA : A ⊆ l) (_hB : B ⊆ l) (_hAd : A.Nodup) (_hBd : B.Nodup)
    (_hAt : (A.length : Int) = t) (_hBt : (B.length : Int) = t) (_hne : A ≠ B) :
    CombineShares A = CombineShares B ∧
      (CombineShares A).2 = none ∧ (CombineShares A).1 ≠ none := by
  rw [CombineShares_const A, CombineShares_const B]
  exact ⟨rfl, rfl, by simp⟩

/-- Witness for C9: the 22-byte secret with t = 2, n = 3, the first two shares
against the last two. -/
theorem C9_combine_same_on_subsets_witness :
    CombineShares [placeholderShare 0, placeholderShare 1]
        = CombineShares [placeholderShare 1, placeholderShare 2] ∧
      (CombineShares [placeholderShare 0, placeholderShare 1]).2 = none ∧
      (CombineShares [placeholderShare 0, placeholderShare 1]).1 ≠ none :=
  C9_combine_same_on_subsets secret22 2 3
    [placeholderShare 0, placeholderShare 1, placeholderShare 2]
    [placeholderShare 0, placeholderShare 1] [placeholderShare 1, placeholderShare 2]
    (by decide) (by simp) (by simp) (by decide) (by decide) (by decide) (by decide)
    (by decide)

/-! ## C10: fewer shares than the threshold -/

/-- C10 (evaluation of the code): for the 20-byte secret `reconstructed-secret`
split with t = 2, n = 2, combining the single first share, fewer than t, returns
exactly that secret with a nil error. -/
theorem C10_below_threshold_returns_secret :
    (2 : Int) ≤ 2 ∧ (2 : Int) ≤ 255 ∧
    SplitSecret reconstructedSecret 2 2
      = some (some [placeholderShare 0, placeholderShare 1], none) ∧
    [placeholderShare 0].length < 2 ∧
    CombineShares [placeholderShare 0] = (some reconstructedSecret, none) := by
  decide

/-! ## C11: two shares of a (3, 5) split -/

/-- C11 (counterexample): the 22-byte secret is split with t = 3, n = 5 and
the first two shares are combined; the error is nil and a byte string is
returned. -/
theorem C11_counterexample :
    SplitSecret secret22 3 5 = some (some ((List.range 5).map placeholderShare), none) ∧
    [placeholderShare 0, placeholderShare 1].Sublist ((List.range 5).map placeholderShare) ∧
    (CombineShares [placeholderShare 0, placeholderShare 1]).2 = none ∧
    (CombineShares [placeholderShare 0, placeholderShare 1]).1 ≠ none := by
  decide

/-- C11 (amended): `CombineShares` takes no threshold and makes no sufficiency
check: for a secret split with t = 3, n = 5, `CombineShares` on any 2 of the 5
shares returns a nil error together with a byte string. -/
theorem C11_combine_two_of_five (secret : Bytes) (l sel : List Bytes)
    (_hsplit : SplitSecret secret 3 5 = some (some l, none))
    (_hsub : sel.Sublist l) (_hlen : sel.length = 2) :
    (CombineShares sel).2 = none ∧ (CombineShares sel).1 ≠ none := by
  rw [CombineShares_const]
  exact ⟨rfl, by simp⟩

/-- Witness for the amended C11: the last two of the five shares. -/
theorem C11_combine_two_of_five_witness :
    (CombineShares [placeholderShare 3, placeholderShare 4]).2 = none ∧
      (CombineShares [placeholderShare 3, placeholderShare 4]).1 ≠ none :=
  C11_combine_two_of_five secret22 ((List.range 5).map placeholderShare)
    [placeholderShare 3, placeholderShare 4] (by decide) (by decide) (by decide)

/-! ## C12: shares below the threshold and the secret -/

/-- C12: for every t, n with 1 <= t <= n <= 255, any two secrets of equal
length and any choice of fewer than t share positions, both calls of
`SplitSecret` succeed and the shares at the chosen positions are the same
byte strings in the two runs: the code draws no randomness, so the selected
shares of the two runs have the same (one-point) distribution. -/
theorem C12_selected_shares_same_for_both_secrets (t n : Int) (S S' : Bytes)
    (positions : List Nat) (ht : 1 ≤ t) (htn : t ≤ n) (hn : n ≤ 255)
    (_hlen : S.length = S'.length) (_hfew : (positions.length : Int) < t)
    (_hpos : ∀ p ∈ positions, (p : Int) < n) :
    ∃ l l', SplitSecret S t n = some (some l, none) ∧
      SplitSecret S' t n = some (some l', none) ∧
      positions.map (fun p => l[p]?) = positions.map (fun p => l'[p]?) :=
  ⟨_, _, SplitSecret_of_valid S t n ht htn (by omega),
    SplitSecret_of_valid S' t n ht htn (by omega), rfl⟩

/-- Witness for C12: t = 3, n = 5, two 22-byte secrets, positions 0 and 4. -/
theorem C12_selected_shares_same_for_both_secrets_witness :
    ∃ l l', SplitSecret secret22 3 5 = some (some l, none) ∧
      SplitSecret (List.replicate 22 0) 3 5 = some (some l', none) ∧
      [0, 4].map (fun p => l[p]?) = [0, 4].map (fun p => l'[p]?) :=
  C12_selected_shares_same_for_both_secrets 3 5 secret22 (List.replicate 22 0) [0, 4]
    (by decide) (by decide) (by decide) (by decide) (by decide) (by decide)

/-! ## C13: errors of GenerateKey -/

/-- C13: when the random source does not fail, `GenerateKey algorithm size`
returns an error if and only if the pair is none of AES-128-GCM/128,
AES-192-GCM/192, AES-256-GCM/256, ChaCha20-Poly1305/256; and on every error,
also one of the random source, the key ID is empty and the key is nil. -/
theorem C13_generateKey_error_iff (newUUID : String) (stream : Nat → Nat)
    (algorithm : String) (size : Int) :
    ((GenerateKey newUUID (.ok stream) algorithm size).err ≠ none ↔
      ¬ ((algorithm = "AES-128-GCM" ∧ size = 128) ∨
        (algorithm = "AES-192-GCM" ∧ size = 192) ∨
        (algorithm = "AES-256-GCM" ∧ size = 256) ∨
        (algorithm = "ChaCha20-Poly1305" ∧ size = 256))) ∧
    ∀ rand : Except String (Nat → Nat),
      (GenerateKey newUUID rand algorithm size).err ≠ none →
        (GenerateKey newUUID rand algorithm size).keyID = "" ∧
        (GenerateKey newUUID rand algorithm size).key = none := by
  constructor
  · constructor
    · intro herr hsup
      obtain ⟨n, hn⟩ := generateKeyBuffer_of_supported algorithm size hsup
      simp [GenerateKey, hn] at herr
    · intro hns
      cases hb : generateKeyBuffer algorithm size with
      | error e => simp [GenerateKey, hb]
      | ok n =>
        exfalso
        apply hns
        rcases generateKeyBuffer_ok algorithm size n hb with h | h | h | h
        · exact Or.inl ⟨h.1, h.2.1⟩
        · exact Or.inr (Or.inl ⟨h.1, h.2.1⟩)
        · exact Or.inr (Or.inr (Or.inl ⟨h.1, h.2.1⟩))
        · exact Or.inr (Or.inr (Or.inr ⟨h.1, h.2.1⟩))
  · intro rand herr
    cases hb : generateKeyBuffer algorithm size with
    | error e => simp [GenerateKey, hb]
    | ok n =>
      cases rand with
      | error e => simp [GenerateKey, hb]
      | ok st => simp [GenerateKey, hb] at herr

/-! ## C14: length of the generated key -/

/-- C14: whenever `GenerateKey algorithm size` succeeds, the key is non-nil and
has exactly size/8 bytes, and the triple of algorithm, size and key length is
one of AES-128-GCM/128/16, AES-192-GCM/192/24, AES-256-GCM/256/32,
ChaCha20-Poly1305/256/32. -/
theorem C14_generateKey_length (newUUID : String) (rand : Except String (Nat → Nat))
    (algorithm : String) (size : Int)
    (h : (GenerateKey newUUID rand algorithm size).err = none) :
    ∃ k, (GenerateKey newUUID rand algorithm size).key = some k ∧
      (k.length : Int) = size / 8 ∧
      ((algorithm = "AES-128-GCM" ∧ size = 128 ∧ k.length = 16) ∨
       (algorithm = "AES-192-GCM" ∧ size = 192 ∧ k.length = 24) ∨
       (algorithm = "AES-256-GCM" ∧ size = 256 ∧ k.length = 32) ∨
       (algorithm = "ChaCha20-Poly1305" ∧ size = 256 ∧ k.length = 32)) := by
  cases hb : generateKeyBuffer algorithm size with
  | error e => simp [GenerateKey, hb] at h
  | ok n =>
    cases rand with
    | error e => simp [GenerateKey, hb] at h
    | ok st =>
      refine ⟨fillRandom n st, by simp [GenerateKey, hb], ?_, ?_⟩
      · rw [length_fillRandom]
        rcases generateKeyBuffer_ok algorithm size n hb with h' | h' | h' | h' <;>
          obtain ⟨_, hs, hn⟩ := h' <;> subst hs <;> subst hn <;> decide
      · rw [length_fillRandom]
        exact generateKeyBuffer_ok algorithm size n hb

/-- Witness for C14: AES-128-GCM with size 128 and a source of zero bytes. -/
theorem C14_generateKey_length_witness :
    ∃ k, (GenerateKey "id-1" (.ok (fun _ => 0)) "AES-128-GCM" 128).key = some k ∧
      (k.length : Int) = (128 : Int) / 8 ∧
      (("AES-128-GCM" = "AES-128-GCM" ∧ (128 : Int) = 128 ∧ k.length = 16) ∨
       ("AES-128-GCM" = "AES-192-GCM" ∧ (128 : Int) = 192 ∧ k.length = 24) ∨
       ("AES-128-GCM" = "AES-256-GCM" ∧ (128 : Int) = 256 ∧ k.length = 32) ∨
       ("AES-128-GCM" = "ChaCha20-Poly1305" ∧ (128 : Int) = 256 ∧ k.length = 32)) :=
  C14_generateKey_length "id-1" (.ok (fun _ => 0)) "AES-128-GCM" 128 (by decide)

/-! ## C15: sizes of GenerateKeyPair -/

/-- C15 (evaluation of the code): with algorithm RSA-OAEP and a random source
that does not fail, `GenerateKeyPair` returns a nil error for the sizes 1024,
0 and 12, none of which is 2048 or 4096: the keys have 128, 0 and 1 bytes;
for size -8 the call does not return, the allocation panics. -/
theorem C15_generateKeyPair_accepts_other_sizes :
    (∃ r, GenerateKeyPair "id-1" (.ok (fun _ => 7)) (.ok (fun _ => 9)) "RSA-OAEP" 1024
        = some r ∧ r.err = none ∧ r.keyID = "id-1" ∧
        r.privateKey = some (List.replicate 128 7) ∧
        r.publicKey = some (List.replicate 128 9)) ∧
    GenerateKeyPair "id-1" (.ok (fun _ => 7)) (.ok (fun _ => 9)) "RSA-OAEP" 0
      = some { keyID := "id-1", privateKey := some [], publicKey := some [], err := none } ∧
    GenerateKeyPair "id-1" (.ok (fun _ => 7)) (.ok (fun _ => 9)) "RSA-OAEP" 12
      = some { keyID := "id-1", privateKey := some [7], publicKey := some [9], err := none } ∧
    GenerateKeyPair "id-1" (.ok (fun _ => 7)) (.ok (fun _ => 9)) "RSA-OAEP" (-8) = none := by
  refine ⟨⟨_, rfl, rfl, rfl, ?_, ?_⟩, by decide, by decide, by decide⟩ <;> decide

/-! ## C16: a scheduled rotation and the reported schedule -/

/-- C16 (evaluation of the code): with the default configuration (rotation
period 90 days), `ScheduleRotation` for `key-1` with an interval of 24 hours at
time 1000 returns nil and leaves the service as it was; `GetRotationSchedule`
then reports the interval of 90 days and the next rotation at 1000 + 90 days,
not 24 hours and 1000 + 24 hours. -/
theorem C16_schedule_not_reported :
    ScheduleRotation { config := defaultConfig } "key-1" (24 * timeHour)
      = ({ config := defaultConfig }, none) ∧
    GetRotationSchedule
        (ScheduleRotation { config := defaultConfig } "key-1" (24 * timeHour)).1 1000 "key-1"
      = (some { KeyID := "key-1", Interval := 90 * 24 * timeHour,
                NextRotate := 1000 + 90 * 24 * timeHour, Enabled := true }, none) ∧
    90 * 24 * timeHour ≠ 24 * timeHour ∧
    1000 + 90 * 24 * timeHour ≠ 1000 + 24 * timeHour := by
  decide

/-! ## C17: versions of a key -/

/-- C17 (evaluation of the code): from the default configuration, `key-1` is
stored and then rotated; both calls return a nil error. The rotation answers
with the fixed identifier `new-key-id`, also when the key rotated is
`new-key-id` itself, and leaves the services as they were: afterwards
`ListKeys` is empty and `RetrieveKey` fails for `key-1` and for `new-key-id`,
so no version of either key, Active or other, is held, and the record
`GetKeyMetadata` reports for `key-1` is the one from before the rotation,
still with version 1. Nothing was appended and nothing was flipped. -/
theorem C17_rotation_appends_nothing :
    (StoreKey defaultServices.Key "key-1" [1, 2, 3] sampleMetadata).2 = none ∧
    RotateKey defaultServices.Rotation "key-1"
      = (defaultServices.Rotation, "new-key-id", none) ∧
    RotateKey defaultServices.Rotation "new-key-id"
      = (defaultServices.Rotation, "new-key-id", none) ∧
    applyCalls defaultServices
        [.storeKey "key-1" [1, 2, 3] sampleMetadata, .rotateKey "key-1"]
      = defaultServices ∧
    ListKeys
        (applyCalls defaultServices
          [.storeKey "key-1" [1, 2, 3] sampleMetadata, .rotateKey "key-1"]).Key
      = (some [], none) ∧
    RetrieveKey
        (applyCalls defaultServices
          [.storeKey "key-1" [1, 2, 3] sampleMetadata, .rotateKey "key-1"]).Key "key-1"
      = (none, none, some "key retrieval not implemented") ∧
    RetrieveKey
        (applyCalls defaultServices
          [.storeKey "key-1" [1, 2, 3] sampleMetadata, .rotateKey "key-1"]).Key
        "new-key-id"
      = (none, none, some "key retrieval not implemented") ∧
    GetKeyMetadata
        (applyCalls defaultServices
          [.storeKey "key-1" [1, 2, 3] sampleMetadata, .rotateKey "key-1"]).Key 5 5 "key-1"
      = GetKeyMetadata defaultServices.Key 5 5 "key-1" ∧
    (∃ md, GetKeyMetadata defaultServices.Key 5 5 "key-1" = (some md, none) ∧
      md.Version = 1) :=
  ⟨rfl, rfl, rfl, rfl, rfl, rfl, rfl, rfl, _, rfl, rfl⟩

/-! ## C18: several callers rotating one key -/

/-- C18 (counterexample): two callers rotate `key-1`. Both calls return a nil
error and the identifier `new-key-id`: two callers proceed and none gets an
error, whichever call runs first. -/
theorem C18_counterexample :
    rotateKeyCalls { config := defaultConfig } ["key-1", "key-1"]
      = ({ config := defaultConfig }, [("new-key-id", none), ("new-key-id", none)]) ∧
    ((rotateKeyCalls { config := defaultConfig } ["key-1", "key-1"]).2.filter
      (fun result => result.2 = none)).length = 2 := by
  decide

/-- C18 (amended): `RotateKey` has no claim step, no schedule state and no
Conflict result: when several callers call `RotateKey` for the same key, in
whatever order the calls run, every call returns a nil error and the service is
left unchanged, so every caller proceeds. -/
theorem C18_every_caller_proceeds (s : rotationServiceImpl) (keyID : String)
    (callers : Nat) (_hseveral : 2 ≤ callers) :
    (rotateKeyCalls s (List.replicate callers keyID)).1 = s ∧
    (rotateKeyCalls s (List.replicate callers keyID)).2.length = callers ∧
    ∀ result ∈ (rotateKeyCalls s (List.replicate callers keyID)).2,
      result.2 = none := by
  rw [rotateKeyCalls_eq]
  refine ⟨rfl, by simp, ?_⟩
  intro result hres
  simp only [List.mem_map] at hres
  obtain ⟨_, _, hr⟩ := hres
  rw [← hr]

/-- Witness for the amended C18: three callers for `key-1`. -/
theorem C18_every_caller_proceeds_witness :
    (rotateKeyCalls { config := defaultConfig } (List.replicate 3 "key-1")).1
      = { config := defaultConfig } ∧
    (rotateKeyCalls { config := defaultConfig } (List.replicate 3 "key-1")).2.length = 3 ∧
    ∀ result ∈ (rotateKeyCalls { config := defaultConfig } (List.replicate 3 "key-1")).2,
      result.2 = none :=
  C18_every_caller_proceeds { config := defaultConfig } "key-1" 3 (by decide)

/-! ## C19: replication result -/

/-- C19 (evaluation of the code): `ReplicateKey` returns nil for every key and
every list of regions and leaves the service unchanged; it takes no
acknowledgement into account, so it returns nil for the regions eu and us
whether or not us answers. -/
theorem C19_replicateKey_always_nil :
    ReplicateKey { config := defaultConfig } "key-1" ["eu", "us"]
      = ({ config := defaultConfig }, none) ∧
    ∀ (s : replicationServiceImpl) (keyID : String) (regions : List String),
      ReplicateKey s keyID regions = (s, none) :=
  ⟨rfl, fun _ _ _ => rfl⟩

/-! ## C20: a backup and the list of backups -/

/-- C20 (evaluation of the code): `BackupKey` for `key-1` and the destination
`s3://backups` returns nil and leaves the service unchanged; `ListBackups`
afterwards returns the empty list, which has no entry for that key and
destination. -/
theorem C20_backup_not_listed :
    BackupKey { config := defaultConfig } "key-1" "s3://backups"
      = ({ config := defaultConfig }, none) ∧
    ListBackups (BackupKey { config := defaultConfig } "key-1" "s3://backups").1
      = (some [], none) ∧
    ¬ ∃ l, (ListBackups (BackupKey { config := defaultConfig } "key-1" "s3://backups").1).1
        = some l ∧
      ∃ b ∈ l, b.KeyID = "key-1" ∧ b.Destination = "s3://backups" := by
  refine ⟨rfl, rfl, ?_⟩
  rintro ⟨l, hl, b, hb, _⟩
  have : l = [] := by
    simp only [ListBackups, Option.some.injEq] at hl
    exact hl.symm
  subst this
  simp at hb

/-! ## C21: restoring an unknown backup -/

/-- C21 (evaluation of the code): `ListBackups` returns the empty list, so the
identifier `no-such-backup` names no listed backup, and `RestoreKey` for it
returns nil and leaves the service unchanged; it returns nil for every
identifier. -/
theorem C21_restore_unknown_backup_succeeds :
    ListBackups { config := defaultConfig } = (some [], none) ∧
    RestoreKey { config := defaultConfig } "no-such-backup" "primary"
      = ({ config := defaultConfig }, none) ∧
    ∀ (s : replicationServiceImpl) (backupID destination : String),
      (RestoreKey s backupID destination).2 = none :=
  ⟨rfl, rfl, fun _ _ _ => rfl⟩

/-! ## C22: parameters of DistributeKey -/

/-- C22 (evaluation of the code): `DistributeKey` returns nil for threshold 5
with 3 shares and for threshold 0 with 0 shares, parameters for which
`SplitSecret` returns its two errors; it returns nil for all parameters. -/
theorem C22_distributeKey_skips_parameter_check :
    DistributeKey "key-1" 5 3 ["alice"] = none ∧
    SplitSecret secret22 5 3
      = some (none, some "threshold (5) cannot be greater than shares (3)") ∧
    DistributeKey "key-1" 0 0 ["alice"] = none ∧
    SplitSecret secret22 0 0
      = some (none, some "threshold and shares must be positive integers") ∧
    ∀ (keyID : String) (threshold shares : Int) (recipients : List String),
      DistributeKey keyID threshold shares recipients = none :=
  ⟨rfl, by decide, rfl, by decide, fun _ _ _ _ => rfl⟩

/-! ## C23: Shamir parameters of a loaded configuration -/

/-- C23 (counterexample): with `SHAMIR_THRESHOLD` = 5 and `SHAMIR_SHARES` = 3
`Load` succeeds, and the configuration has threshold 5 above its 3 shares. -/
theorem C23_counterexample :
    Load envThresholdAboveShares
      = .ok { defaultConfig with ShamirThreshold := 5, ShamirShares := 3 } ∧
    ¬ ((1 : Int) ≤ 5 ∧ (5 : Int) ≤ 3 ∧ (3 : Int) ≤ 255) :=
  ⟨rfl, by decide⟩

/-- C23 (amended): every configuration that `Load` returns successfully has
ShamirThreshold and ShamirShares equal to the integers `strconv.Atoi` reads
from `SHAMIR_THRESHOLD` and `SHAMIR_SHARES` (from the defaults 2 and 3 when the
variable is unset or empty), each within the signed 64-bit range; no order
between the two and no bound by 1 or 255 is part of it. -/
theorem C23_load_shamir_values (env : String → String) (cfg : Config)
    (h : Load env = .ok cfg) :
    Atoi (getEnv env "SHAMIR_THRESHOLD" "2") = .ok cfg.ShamirThreshold ∧
    Atoi (getEnv env "SHAMIR_SHARES" "3") = .ok cfg.ShamirShares ∧
    (-(2 ^ 63) ≤ cfg.ShamirThreshold ∧ cfg.ShamirThreshold ≤ 2 ^ 63 - 1) ∧
    (-(2 ^ 63) ≤ cfg.ShamirShares ∧ cfg.ShamirShares ≤ 2 ^ 63 - 1) ∧
    (env "SHAMIR_THRESHOLD" = "" → cfg.ShamirThreshold = 2) ∧
    (env "SHAMIR_SHARES" = "" → cfg.ShamirShares = 3) := by
  obtain ⟨_, ht, hn, _⟩ := Load_ok_fields env cfg h
  refine ⟨ht, hn, Atoi_inRange _ _ ht, Atoi_inRange _ _ hn, ?_, ?_⟩
  · intro he
    have h2 : Atoi (getEnv env "SHAMIR_THRESHOLD" "2") = .ok 2 := by
      simp only [getEnv, he]
      rfl
    rw [h2] at ht
    injection ht with ht
    exact ht.symm
  · intro he
    have h3 : Atoi (getEnv env "SHAMIR_SHARES" "3") = .ok 3 := by
      simp only [getEnv, he]
      rfl
    rw [h3] at hn
    injection hn with hn
    exact hn.symm

/-- Witness for the amended C23: the environment with threshold 5, shares 3. -/
theorem C23_load_shamir_values_witness :
    Atoi (getEnv envThresholdAboveShares "SHAMIR_THRESHOLD" "2") = .ok 5 ∧
    Atoi (getEnv envThresholdAboveShares "SHAMIR_SHARES" "3") = .ok 3 ∧
    (-(2 ^ 63) ≤ (5 : Int) ∧ (5 : Int) ≤ 2 ^ 63 - 1) ∧
    (-(2 ^ 63) ≤ (3 : Int) ∧ (3 : Int) ≤ 2 ^ 63 - 1) ∧
    (envThresholdAboveShares "SHAMIR_THRESHOLD" = "" → (5 : Int) = 2) ∧
    (envThresholdAboveShares "SHAMIR_SHARES" = "" → (3 : Int) = 3) :=
  C23_load_shamir_values envThresholdAboveShares
    { defaultConfig with ShamirThreshold := 5, ShamirShares := 3 } rfl

/-! ## C26: CheckPermission and the role tables -/

/-- C26 (counterexample): `CheckPermission` grants user `admin` the permission
`launch:rockets`, which none of the roles of `admin` carries. -/
theorem C26_counterexample :
    CheckPermission "admin" "launch:rockets" = (true, none) ∧
      ¬ permittedByRoleTables "admin" "launch:rockets" := by
  refine ⟨rfl, ?_⟩
  unfold permittedByRoleTables
  decide

/-- C26 (amended): for every userID and permission name p other than the pair
(`manager`, `write:own_data`), `CheckPermission userID p` returns a nil error,
and returns true if and only if userID is `admin` or p is among
`GetRolePermissions r` for some role r in `GetUserRoles userID`. -/
theorem C26_checkPermission_iff (userID p : String)
    (hex : ¬ (userID = "manager" ∧ p = "write:own_data")) :
    (CheckPermission userID p).2 = none ∧
    ((CheckPermission userID p).1 = true ↔
      userID = "admin" ∨ permittedByRoleTables userID p) := by
  by_cases h1 : userID = "admin"
  · subst h1
    exact ⟨rfl, by simp [CheckPermission]⟩
  · by_cases h2 : userID = "user-123"
    · subst h2
      refine ⟨rfl, ?_⟩
      simp [CheckPermission, checkPermissionTable, permittedByRoleTables, GetUserRoles,
        GetRolePermissions]
      constructor <;> intro h <;> rcases h with h | h <;> simp [h]
    · by_cases h3 : userID = "manager"
      · subst h3
        have hp : p ≠ "write:own_data" := fun hc => hex ⟨rfl, hc⟩
        refine ⟨rfl, ?_⟩
        simp [CheckPermission, checkPermissionTable, permittedByRoleTables, GetUserRoles,
          GetRolePermissions, hp]
        constructor <;> intro h <;> rcases h with h | h | h <;> simp [h]
      · refine ⟨by simp [CheckPermission, checkPermissionTable, h1, h2, h3], ?_⟩
        simp [CheckPermission, checkPermissionTable, permittedByRoleTables, GetUserRoles,
          h1, h2, h3]

/-- Witness for the amended C26: user `user-123` and the permission `read:data`. -/
theorem C26_checkPermission_iff_witness :
    (CheckPermission "user-123" "read:data").2 = none ∧
    ((CheckPermission "user-123" "read:data").1 = true ↔
      "user-123" = "admin" ∨ permittedByRoleTables "user-123" "read:data") :=
  C26_checkPermission_iff "user-123" "read:data" (by decide)

/-! ## C27: the TOTP secret -/

/-- C27 (evaluation of the code): whenever the random source does not fail,
`EnableTOTP` returns a nil error and a string of 28 characters, the standard
Base64 encoding of the 20 bytes, not 32 characters of Base32; for a source of
bytes 255 the string is 26 slashes followed by `8=`, whose characters are not
all in the Base32 alphabet. -/
theorem C27_enableTOTP_returns_base64 :
    (∀ (stream : Nat → Nat) (userID : String),
      (EnableTOTP (.ok stream) userID).2 = none ∧
      (EnableTOTP (.ok stream) userID).1 = base64StdEncodeToString (fillRandom 20 stream) ∧
      (EnableTOTP (.ok stream) userID).1.length = 28) ∧
    EnableTOTP (.ok (fun _ => 255)) "user-123" = ("//////////////////////////8=", none) ∧
    ¬ (∀ c ∈ (EnableTOTP (.ok (fun _ => 255)) "user-123").1.toList, c ∈ base32Alphabet) := by
  refine ⟨fun _ _ => ⟨rfl, rfl, rfl⟩, by decide, ?_⟩
  decide

/-! ## C28: RetrieveKey and the nil metadata pointer -/

/-- C28: for every keyID `RetrieveKey` returns a non-nil error, so never a nil
metadata pointer together with a nil error, also on the service left by a
successful `StoreKey` for that keyID; and the handler `KeyHandler.RetrieveKey`
never reaches the dereference of a nil metadata pointer. -/
theorem C28_retrieveKey_never_nil_metadata_without_error (s : keyServiceImpl)
    (keyID : String) (key : Bytes) (metadata : KeyMetadata)
    (bound : Except String String) :
    (RetrieveKey s keyID).2.2 ≠ none ∧
    ¬ ((RetrieveKey s keyID).2.1 = none ∧ (RetrieveKey s keyID).2.2 = none) ∧
    (StoreKey s keyID key metadata).2 = none ∧
    (RetrieveKey (StoreKey s keyID key metadata).1 keyID).2.2 ≠ none ∧
    KeyHandler.RetrieveKey s bound ≠ .nilDereference := by
  refine ⟨by simp [RetrieveKey], by simp [RetrieveKey], rfl, by simp [RetrieveKey], ?_⟩
  cases bound with
  | error e => simp [KeyHandler.RetrieveKey]
  | ok k => simp [KeyHandler.RetrieveKey, RetrieveKey]

/-! ## C29: the reported rotation interval -/

/-- C29: for every keyID and every configuration with
0 <= KeyRotationPeriod <= 106751, `GetRotationSchedule` returns no error and a
schedule with KeyID = keyID, Enabled = true and Interval exactly
KeyRotationPeriod * 86400 * 10^9 nanoseconds, a value inside the signed 64-bit
range; the result is the same on the service left by an earlier
`ScheduleRotation` or `CancelRotation`. -/
theorem C29_rotation_interval_exact (s : rotationServiceImpl) (now : Int)
    (keyID earlierKey : String) (earlierInterval : Int)
    (h0 : 0 ≤ s.config.KeyRotationPeriod) (h1 : s.config.KeyRotationPeriod ≤ 106751) :
    (∃ sched, GetRotationSchedule s now keyID = (some sched, none) ∧
      sched.KeyID = keyID ∧ sched.Enabled = true ∧
      sched.Interval = s.config.KeyRotationPeriod * 86400 * 10 ^ 9 ∧
      -(2 ^ 63) ≤ sched.Interval ∧ sched.Interval ≤ 2 ^ 63 - 1) ∧
    GetRotationSchedule (ScheduleRotation s earlierKey earlierInterval).1 now keyID
      = GetRotationSchedule s now keyID ∧
    GetRotationSchedule (CancelRotation s earlierKey).1 now keyID
      = GetRotationSchedule s now keyID := by
  refine ⟨⟨_, rfl, rfl, rfl, rotationPeriodDuration_exact s h0 h1, ?_, ?_⟩, rfl, rfl⟩
  · show -(2 ^ 63) ≤ rotationPeriodDuration s
    rw [rotationPeriodDuration_exact s h0 h1]
    norm_num
    omega
  · show rotationPeriodDuration s ≤ 2 ^ 63 - 1
    rw [rotationPeriodDuration_exact s h0 h1]
    norm_num
    omega

/-- Witness for C29: the default configuration, 90 days. -/
theorem C29_rotation_interval_exact_witness :
    (∃ sched, GetRotationSchedule { config := defaultConfig } 1000 "key-1"
        = (some sched, none) ∧
      sched.KeyID = "key-1" ∧ sched.Enabled = true ∧
      sched.Interval = defaultConfig.KeyRotationPeriod * 86400 * 10 ^ 9 ∧
      -(2 ^ 63) ≤ sched.Interval ∧ sched.Interval ≤ 2 ^ 63 - 1) ∧
    GetRotationSchedule
        (ScheduleRotation { config := defaultConfig } "key-2" (24 * timeHour)).1 1000 "key-1"
      = GetRotationSchedule { config := defaultConfig } 1000 "key-1" ∧
    GetRotationSchedule (CancelRotation { config := defaultConfig } "key-2").1 1000 "key-1"
      = GetRotationSchedule { config := defaultConfig } 1000 "key-1" :=
  C29_rotation_interval_exact { config := defaultConfig } 1000 "key-1" "key-2"
    (24 * timeHour) (by decide) (by decide)

/-! ## C30: the region list -/

/-- C30: for a configuration that `Load` returns, when `REPLICATION_REGIONS` is
unset or empty the region list is empty; otherwise the value is cut into
pieces at its commas (the pieces contain no comma and, joined with commas, give
the value back), the region list has one entry per piece, in the same order,
that is (number of commas + 1) entries, and each entry is its piece trimmed:
the piece is the entry between two runs of white space, and the entry neither
starts nor ends with white space. Empty pieces give empty entries. -/
theorem C30_region_list_parsing (env : String → String) (cfg : Config)
    (h : Load env = .ok cfg) :
    (env "REPLICATION_REGIONS" = "" → cfg.ReplicationRegions = []) ∧
    (env "REPLICATION_REGIONS" ≠ "" →
      ∃ pieces : List (List Char),
        List.intercalate [comma] pieces = (env "REPLICATION_REGIONS").toList ∧
        (∀ piece ∈ pieces, comma ∉ piece) ∧
        cfg.ReplicationRegions = pieces.map (fun piece => TrimSpace (String.mk piece)) ∧
        cfg.ReplicationRegions.length
          = (env "REPLICATION_REGIONS").toList.count comma + 1 ∧
        ∀ piece ∈ pieces,
          (∃ pre suf, (∀ c ∈ pre, isSpace c = true) ∧ (∀ c ∈ suf, isSpace c = true) ∧
            piece = pre ++ (TrimSpace (String.mk piece)).toList ++ suf) ∧
          (∀ c, (TrimSpace (String.mk piece)).toList.head? = some c → isSpace c = false) ∧
          (∀ c, (TrimSpace (String.mk piece)).toList.getLast? = some c →
            isSpace c = false)) := by
  obtain ⟨_, _, _, hreg⟩ := Load_ok_fields env cfg h
  rw [getEnv_empty_default] at hreg
  constructor
  · intro he
    rw [hreg, he]
    rfl
  · intro hne
    rw [parseRegions_of_ne _ hne] at hreg
    refine ⟨splitAtCommas (env "REPLICATION_REGIONS").toList,
      intercalate_splitAtCommas _, comma_not_mem_of_mem_splitAtCommas _, hreg, ?_, ?_⟩
    · rw [hreg, List.length_map, length_splitAtCommas]
    · intro piece _
      exact ⟨trim_decompose piece, trim_head_not_space piece, trim_getLast_not_space piece⟩

/-- Witness for C30: `REPLICATION_REGIONS` = `eu-west, us-east ,,ap` gives the
four entries `eu-west`, `us-east`, the empty string and `ap`, one more than the
three commas. -/
theorem C30_region_list_parsing_witness :
    Load envRegions
      = .ok { defaultConfig with ReplicationRegions := ["eu-west", "us-east", "", "ap"] } ∧
    (["eu-west", "us-east", "", "ap"] : List String).length
      = (envRegions "REPLICATION_REGIONS").toList.count comma + 1 := by
  refine ⟨rfl, ?_⟩
  obtain ⟨_, _, _, _, hlen, _⟩ :=
    (C30_region_list_parsing envRegions
      { defaultConfig with ReplicationRegions := ["eu-west", "us-east", "", "ap"] } rfl).2
      (by decide)
  exact hlen

end CryptoFortress
